import Mathlib

/-!
Shallow embedding of the structured-logging and request-observability core of
the `go-api` repository: the global zap-based logger in
`internal/middleware/global_error.go` (`Config`, `Init`, `Sync`, the leveled
helpers) and the gin middleware in `internal/middleware/logger.go`
(`GinZap`, `RequestIDMiddleware`).

Calls into the vendored libraries (`go.uber.org/zap`, `zapcore`,
`lumberjack`, `gin`, `google/uuid`) are embedded by translating the library
behaviour the repository code exercises: level parsing
(`zapcore.Level.UnmarshalText`), core construction and level gating, the JSON
encoder's record shape, the colorized level encoder, `(*zap.Logger).With`'s
empty-argument short-circuit, and uuid formatting.
-/

namespace GoApi

/-- `zapcore.Level`: the severity enumeration, ordered
debug < info < warn < error < dpanic < panic < fatal. -/
inductive Level where
  | debug
  | info
  | warn
  | error
  | dpanic
  | panic
  | fatal
deriving DecidableEq, Repr

/-- Numeric value of a `zapcore.Level` (`DebugLevel = -1`, `InfoLevel = 0`, ...). -/
def Level.toInt : Level → Int
  | .debug => -1
  | .info => 0
  | .warn => 1
  | .error => 2
  | .dpanic => 3
  | .panic => 4
  | .fatal => 5

/-- `zapcore.Level.unmarshalText`: the case-sensitive single pass of the level
parser (accepts the lowercase and uppercase spellings, and the empty string
as info). -/
def levelUnmarshalTextStrict : String → Option Level
  | "debug" => some .debug
  | "DEBUG" => some .debug
  | "info" => some .info
  | "INFO" => some .info
  | "" => some .info
  | "warn" => some .warn
  | "WARN" => some .warn
  | "error" => some .error
  | "ERROR" => some .error
  | "dpanic" => some .dpanic
  | "DPANIC" => some .dpanic
  | "panic" => some .panic
  | "PANIC" => some .panic
  | "fatal" => some .fatal
  | "FATAL" => some .fatal
  | _ => none

/-- The lower-casing pass of `zapcore.Level.UnmarshalText`
(`bytes.ToLower`), restricted to ASCII letters: the level names are ASCII,
and only ASCII case-mapping can make a string equal one of them up to the
exotic one-way Unicode foldings, which the model leaves out. -/
def asciiLower (s : String) : String :=
  String.mk (s.data.map (fun c =>
    if 65 ≤ c.toNat ∧ c.toNat ≤ 90 then Char.ofNat (c.toNat + 32) else c))

/-- `zapcore.Level.UnmarshalText` (on a non-nil receiver): try the text as
given, then lowercased; `none` models the `unrecognized level` error. -/
def levelUnmarshalText (s : String) : Option Level :=
  match levelUnmarshalTextStrict s with
  | some l => some l
  | none => levelUnmarshalTextStrict (asciiLower s)

/-- `middleware.Config` from `global_error.go`: the logger configuration
struct (yaml tags omitted; sizes are Go `int`, modelled as `Int`). -/
structure Config where
  Development : Bool
  Level : String
  Encoding : String
  OutputPaths : List String
  ErrorOutputPaths : List String
  DisableCaller : Bool
  DisableStacktrace : Bool
  MaxSizeMB : Int
  MaxBackups : Int
  MaxAgeDays : Int
  Compress : Bool
deriving DecidableEq, Repr

/-- The `EncodeLevel` function installed by `Init`:
`zapcore.LowercaseLevelEncoder`, replaced by
`zapcore.LowercaseColorLevelEncoder` when `config.Development`. -/
inductive LevelEncoder where
  | lowercase
  | lowercaseColor
deriving DecidableEq, Repr

/-- The `EncodeTime` function installed by `Init` (`zapcore.ISO8601TimeEncoder`). -/
inductive TimeEncoder where
  | iso8601
deriving DecidableEq, Repr

/-- The `EncodeDuration` function installed by `Init` (`zapcore.StringDurationEncoder`). -/
inductive DurationEncoder where
  | string
deriving DecidableEq, Repr

/-- The `EncodeCaller` function installed by `Init` (`zapcore.ShortCallerEncoder`). -/
inductive CallerEncoder where
  | short
deriving DecidableEq, Repr

/-- `zapcore.EncoderConfig` as populated by `Init` (`FunctionKey` is
`zapcore.OmitKey` and `LineEnding` is the default newline; both constant, so
not carried). -/
structure EncoderConfig where
  TimeKey : String
  LevelKey : String
  NameKey : String
  CallerKey : String
  MessageKey : String
  StacktraceKey : String
  EncodeLevel : LevelEncoder
  EncodeTime : TimeEncoder
  EncodeDuration : DurationEncoder
  EncodeCaller : CallerEncoder
deriving DecidableEq, Repr

/-- The encoder config built by `Init` from a `Config`: fixed keys
`ts`/`level`/`logger`/`caller`/`msg`/`stacktrace`, ISO-8601 time, and the
colorized lowercase level encoder exactly when `config.Development`. -/
def mkEncoderConfig (config : Config) : EncoderConfig :=
  { TimeKey := "ts"
  , LevelKey := "level"
  , NameKey := "logger"
  , CallerKey := "caller"
  , MessageKey := "msg"
  , StacktraceKey := "stacktrace"
  , EncodeLevel := if config.Development then .lowercaseColor else .lowercase
  , EncodeTime := .iso8601
  , EncodeDuration := .string
  , EncodeCaller := .short }

/-- A `lumberjack.Logger` rotating-file writer as constructed by `Init`'s file
loop. `allocId` models the identity of the heap allocation: each loop
iteration evaluates `&lumberjack.Logger{...}`, a fresh allocation, so the
iteration index identifies the instance. -/
structure LumberjackLogger where
  Filename : String
  MaxSize : Int
  MaxBackups : Int
  MaxAge : Int
  Compress : Bool
  allocId : Nat
deriving DecidableEq, Repr

/-- A `zapcore.Core` as built by `Init`: either the console core
(`NewConsoleEncoder` over `zapcore.Lock(os.Stdout)`) or a file core
(`NewJSONEncoder` over an `AddSync`-wrapped `lumberjack.Logger`); both carry
the level they gate on. -/
inductive Core where
  | console (enc : EncoderConfig) (lvl : Level)
  | file (enc : EncoderConfig) (w : LumberjackLogger) (lvl : Level)
deriving DecidableEq, Repr

/-- Whether a core is a file core. -/
def Core.isFile : Core → Bool
  | .console _ _ => false
  | .file _ _ _ => true

/-- The encoder config a core was built with. -/
def Core.encoder : Core → EncoderConfig
  | .console enc _ => enc
  | .file enc _ _ => enc

/-- The rotation policies of the file cores, in order. -/
def filePolicies : List Core → List LumberjackLogger
  | [] => []
  | .console _ _ :: rest => filePolicies rest
  | .file _ w _ :: rest => w :: filePolicies rest

/-- Number of console cores in a core list. -/
def consoleCount (cores : List Core) : Nat :=
  (cores.filter (fun c => !c.isFile)).length

/-- The `for _, path := range config.OutputPaths` loop of `Init`, threading
the iteration index `i` as the allocation identity of the per-target
`lumberjack.Logger`: `stdout`/`stderr` entries are skipped
(`continue // already handled`); every other entry gets a fresh JSON-encoded
file core with its own rotation policy. -/
def fileCoresAux (config : Config) (enc : EncoderConfig) (lvl : Level) :
    Nat → List String → List Core
  | _, [] => []
  | i, path :: rest =>
    if path = "stdout" ∨ path = "stderr" then
      fileCoresAux config enc lvl (i + 1) rest
    else
      Core.file enc
        { Filename := path
        , MaxSize := config.MaxSizeMB
        , MaxBackups := config.MaxBackups
        , MaxAge := config.MaxAgeDays
        , Compress := config.Compress
        , allocId := i } lvl :: fileCoresAux config enc lvl (i + 1) rest

/-- All cores built by `Init` for a parsed level: the console core is added
first and only when `config.Development`; then one file core per
non-`stdout`/`stderr` output path. -/
def buildCores (config : Config) (lvl : Level) : List Core :=
  let enc := mkEncoderConfig config
  (if config.Development then [Core.console enc lvl] else [])
    ++ fileCoresAux config enc lvl 0 config.OutputPaths

/-- A structured field value (`zap.Int`, `zap.String`, `zap.Duration`). -/
inductive FieldValue where
  | str (s : String)
  | int (n : Int)
  | duration (d : Int)
deriving DecidableEq, Repr

/-- A `zap.Field`: key plus value. -/
structure Field where
  key : String
  value : FieldValue
deriving DecidableEq, Repr

/-- The `*zap.Logger` value produced by `zap.New(core, opts...)` in `Init`:
the teed cores, the accumulated `With` context, and the caller/stacktrace
options. `opts` is `AddCaller(); AddCallerSkip(1)`, then
`AddStacktrace(ErrorLevel)` unless `DisableStacktrace`, then
`WithCaller(false)` when `DisableCaller`; options apply in order, so the
final caller flag is `!DisableCaller`. -/
structure ZapLogger where
  cores : List Core
  context : List Field
  callerEnabled : Bool
  callerSkip : Nat
  stacktraceLevel : Option Level
deriving DecidableEq, Repr

/-- The logger `Init` installs once the level string parses. -/
def mkLogger (config : Config) (lvl : Level) : ZapLogger :=
  { cores := buildCores config lvl
  , context := []
  , callerEnabled := !config.DisableCaller
  , callerSkip := 1
  , stacktraceLevel := if config.DisableStacktrace then none else some .error }

/-- The error `Init` can return: `zapcore.Level.UnmarshalText`'s
`unrecognized level` error, carrying the offending text. -/
inductive ConfigError where
  | unrecognizedLevel (text : String)
deriving DecidableEq, Repr

/-- `middleware.Init` as a pure constructor: parse the level string; on
failure return the error at once (no encoder, core or sink is built); on
success build the logger. -/
def Init (config : Config) : Except ConfigError ZapLogger :=
  match levelUnmarshalText config.Level with
  | none => .error (.unrecognizedLevel config.Level)
  | some lvl => .ok (mkLogger config lvl)

/-- The package-level mutable state of `global_error.go`: the `globalLogger`
and `sugaredLogger` variables. Both start at their zero value `nil`
(modelled `none`); `sugaredLogger` always wraps the same logger value. -/
structure LoggerState where
  globalLogger : Option ZapLogger
  sugaredLogger : Option ZapLogger
deriving DecidableEq, Repr

/-- The state at process start, before any `Init` call: both handles nil. -/
def initialState : LoggerState := { globalLogger := none, sugaredLogger := none }

/-- `middleware.Init` with its side effect on the package-level variables:
an unparseable level string returns the error before anything is assigned,
so the state is untouched; on success `globalLogger` and `sugaredLogger`
are overwritten. -/
def runInit (s : LoggerState) (config : Config) : LoggerState × Except ConfigError Unit :=
  match levelUnmarshalText config.Level with
  | none => (s, .error (.unrecognizedLevel config.Level))
  | some lvl =>
      let l := mkLogger config lvl
      ({ globalLogger := some l, sugaredLogger := some l }, .ok ())

/-- A sequence of `Init` calls starting from a state. -/
def runInits (s : LoggerState) (configs : List Config) : LoggerState :=
  configs.foldl (fun st c => (runInit st c).1) s

/-- Whether a core whose configured level is `coreLvl` admits a record at
`recLvl` (`zapcore.LevelEnabler`: enabled when `recLvl >= coreLvl`). -/
def levelEnabled (coreLvl recLvl : Level) : Bool :=
  decide (coreLvl.toInt ≤ recLvl.toInt)

/-- The level a core gates on. -/
def Core.level : Core → Level
  | .console _ lvl => lvl
  | .file _ _ lvl => lvl

/-- One record as accepted by a core: the core it went to, the severity, the
message and the structured fields (the logger's `With` context first, then
the call-site fields, as zap's core stores context ahead of per-call
fields). -/
structure SinkWrite where
  core : Core
  lvl : Level
  msg : String
  fields : List Field
deriving DecidableEq, Repr

/-- A leveled log call on a (non-nil) logger: the `zapcore.Tee` hands the
entry to every core, and each core keeps it iff its level admits it. -/
def logAt (l : ZapLogger) (lvl : Level) (msg : String) (fields : List Field) :
    List SinkWrite :=
  l.cores.filterMap (fun c =>
    if levelEnabled c.level lvl then
      some { core := c, lvl := lvl, msg := msg, fields := l.context ++ fields }
    else none)

/-- The fault a logging helper can hit: dereferencing the nil
`globalLogger`/`sugaredLogger` (a Go nil-pointer panic inside zap's
`(*Logger)` methods, which read `log.core` unconditionally). -/
inductive Fault where
  | nilDereference
deriving DecidableEq, Repr

/-- `middleware.Debug`: `globalLogger.Debug(msg, fields...)`. On a nil
`globalLogger` this faults (zap's `check` reads `log.core`); otherwise it
emits to every core that admits debug. -/
def opDebug (s : LoggerState) (msg : String) (fields : List Field) :
    Except Fault (List SinkWrite) :=
  match s.globalLogger with
  | none => .error .nilDereference
  | some l => .ok (logAt l .debug msg fields)

/-- `middleware.Info`: `globalLogger.Info(msg, fields...)`. -/
def opInfo (s : LoggerState) (msg : String) (fields : List Field) :
    Except Fault (List SinkWrite) :=
  match s.globalLogger with
  | none => .error .nilDereference
  | some l => .ok (logAt l .info msg fields)

/-- `middleware.Warn`: `globalLogger.Warn(msg, fields...)`. -/
def opWarn (s : LoggerState) (msg : String) (fields : List Field) :
    Except Fault (List SinkWrite) :=
  match s.globalLogger with
  | none => .error .nilDereference
  | some l => .ok (logAt l .warn msg fields)

/-- `middleware.Error`: `globalLogger.Error(msg, fields...)`. -/
def opError (s : LoggerState) (msg : String) (fields : List Field) :
    Except Fault (List SinkWrite) :=
  match s.globalLogger with
  | none => .error .nilDereference
  | some l => .ok (logAt l .error msg fields)

/-- `middleware.Fatal`: `globalLogger.Fatal(msg, fields...)`; the subsequent
`os.Exit(1)` is outside the model, the writes it produces first are. -/
def opFatal (s : LoggerState) (msg : String) (fields : List Field) :
    Except Fault (List SinkWrite) :=
  match s.globalLogger with
  | none => .error .nilDereference
  | some l => .ok (logAt l .fatal msg fields)

/-- `middleware.Panic`: `globalLogger.Panic(msg, fields...)`; the Go panic it
raises after writing is outside the model, the writes are. -/
def opPanic (s : LoggerState) (msg : String) (fields : List Field) :
    Except Fault (List SinkWrite) :=
  match s.globalLogger with
  | none => .error .nilDereference
  | some l => .ok (logAt l .panic msg fields)

/-- `middleware.ErrorWithStack`: captures up to 4096 bytes of stack, trims
it, appends it as the `stack` string field and logs `err.Error()` at error
level. The runtime-captured stack text is a parameter. -/
def opErrorWithStack (s : LoggerState) (errMsg : String) (stackTrace : String)
    (fields : List Field) : Except Fault (List SinkWrite) :=
  match s.globalLogger with
  | none => .error .nilDereference
  | some l =>
      .ok (logAt l .error errMsg (fields ++ [{ key := "stack", value := .str stackTrace }]))

/-- `middleware.WithFields`: `globalLogger.With(fields...)`. zap's
`(*Logger).With` returns the receiver unchanged when the field list is
empty, before any dereference; with at least one field it clones the
receiver, faulting on nil. -/
def opWithFields (s : LoggerState) (fields : List Field) :
    Except Fault (Option ZapLogger) :=
  if fields.isEmpty then
    .ok s.globalLogger
  else
    match s.globalLogger with
    | none => .error .nilDereference
    | some l => .ok (some { l with context := l.context ++ fields })

/-- `middleware.Sync`: `globalLogger.Sync()` flushes every buffered sink
writer (`log.core.Sync()`), faulting on a nil `globalLogger`; the I/O result
of a successful flush is not modelled beyond success. -/
def opSync (s : LoggerState) : Except Fault Unit :=
  match s.globalLogger with
  | none => .error .nilDereference
  | some _ => .ok ()

/-- `zapcore.Level.String` for the levels: the lowercase severity name. -/
def lowercaseLevelString : Level → String
  | .debug => "debug"
  | .info => "info"
  | .warn => "warn"
  | .error => "error"
  | .dpanic => "dpanic"
  | .panic => "panic"
  | .fatal => "fatal"

/-- The ANSI color number zapcore pairs with each level
(magenta for debug, blue for info, yellow for warn, red for error and
above). -/
def levelColorCode : Level → Nat
  | .debug => 35
  | .info => 34
  | .warn => 33
  | .error => 31
  | .dpanic => 31
  | .panic => 31
  | .fatal => 31

/-- The text a level encoder writes for the `level` key:
`LowercaseLevelEncoder` writes the plain lowercase name,
`LowercaseColorLevelEncoder` wraps it in ANSI color escapes
(`\x1b[<color>m<name>\x1b[0m`). -/
def encodeLevelValue : LevelEncoder → Level → String
  | .lowercase, l => lowercaseLevelString l
  | .lowercaseColor, l =>
      "\x1b[" ++ toString (levelColorCode l) ++ "m" ++ lowercaseLevelString l ++ "\x1b[0m"

/-- Whether a logger attaches a stacktrace to an entry at `lvl`
(`zap.AddStacktrace(threshold)`: attached when `lvl >= threshold`). -/
def stacktraceAt (l : ZapLogger) (lvl : Level) : Bool :=
  match l.stacktraceLevel with
  | none => false
  | some t => levelEnabled t lvl

/-- The key sequence of a record rendered by zapcore's JSON encoder with
encoder config `ec`, for an entry with optional logger name, caller defined
iff `callerIncluded`, a stack iff `stackIncluded`, and the given structured
field keys: the encoder writes level, time, name, caller, message, the
fields, then the stacktrace. All keys of `mkEncoderConfig` are non-empty, so
no key is suppressed. -/
def jsonRecordKeys (ec : EncoderConfig) (callerIncluded stackIncluded : Bool)
    (loggerName : Option String) (fieldKeys : List String) : List String :=
  [ec.LevelKey, ec.TimeKey]
    ++ (match loggerName with | some _ => [ec.NameKey] | none => [])
    ++ (if callerIncluded then [ec.CallerKey] else [])
    ++ [ec.MessageKey]
    ++ fieldKeys
    ++ (if stackIncluded then [ec.StacktraceKey] else [])

/-- A log record as emitted by one leveled call of the `go-api/pkg/logger`
package: severity, message and call-site structured fields. -/
structure EmittedRecord where
  level : Level
  msg : String
  fields : List Field
deriving DecidableEq, Repr

/-- Modelled from the spec: `go-api/pkg/logger.Error`, imported by
`internal/middleware/logger.go`, is not under `src/`; per the spec's leveled
operations it appends one error-severity record carrying the message and the
call-site fields. -/
def loggerError (msg : String) (fields : List Field) : EmittedRecord :=
  { level := .error, msg := msg, fields := fields }

/-- Modelled from the spec: `go-api/pkg/logger.Info`, imported by
`internal/middleware/logger.go`, is not under `src/`; per the spec's leveled
operations it appends one info-severity record carrying the message and the
call-site fields. -/
def loggerInfo (msg : String) (fields : List Field) : EmittedRecord :=
  { level := .info, msg := msg, fields := fields }

/-- The `*gin.Context` state `GinZap` observes once `c.Next()` has returned:
the URL path and raw query (read before `c.Next()`), the request attributes,
the response status, the error strings accumulated by the chain
(`c.Errors.Errors()`), and the per-request key/value store written by
`c.Set` (only string values occur here). -/
structure GinContext where
  path : String
  rawQuery : String
  method : String
  clientIP : String
  userAgent : String
  status : Int
  errors : List String
  keys : List (String × String)
deriving DecidableEq, Repr

/-- `(*gin.Context).GetString`: the stored string for the key, or `""` when
the key is absent. -/
def GinContext.getString (c : GinContext) (k : String) : String :=
  (c.keys.lookup k).getD ""

/-- `middleware.GinZap`'s post-`c.Next()` logging, as the ordered sequence of
records its `logger.Error` / `logger.Info` calls emit. `start` and `fin` are
the two `time.Now()` readings (monotonic-clock nanoseconds);
`latency := end.Sub(start)`. With accumulated errors, one error record per
error string, with no fields; otherwise one info record whose message is the
path, carrying the status, method, path, query, client IP, user agent,
latency, and the `requestId` context value. -/
def ginZap (c : GinContext) (start fin : Nat) : List EmittedRecord :=
  let latency : Int := (fin : Int) - (start : Int)
  if 0 < c.errors.length then
    c.errors.map (fun e => loggerError e [])
  else
    [loggerInfo c.path
      [ { key := "status", value := .int c.status }
      , { key := "method", value := .str c.method }
      , { key := "path", value := .str c.path }
      , { key := "query", value := .str c.rawQuery }
      , { key := "ip", value := .str c.clientIP }
      , { key := "user-agent", value := .str c.userAgent }
      , { key := "latency", value := .duration latency }
      , { key := "request-id", value := .str (c.getString "requestId") } ]]

/-- Lowercase hexadecimal digit (`encoding/hex` alphabet
`0123456789abcdef`). -/
def hexDigitChar (n : Nat) : Char :=
  if n < 10 then Char.ofNat (48 + n) else Char.ofNat (87 + n)

/-- The two lowercase hex digits of one byte. -/
def byteHexChars (b : Nat) : List Char :=
  [hexDigitChar (b / 16 % 16), hexDigitChar (b % 16)]

/-- `hex.Encode` of a byte sequence, as characters. -/
def bytesHexChars (bs : List Nat) : List Char :=
  (bs.map byteHexChars).flatten

/-- `uuid.New()`: a version-4 UUID from 16 random bytes; byte 6 becomes
`(b & 0x0f) | 0x40` (version 4) and byte 8 becomes `(b & 0x3f) | 0x80`
(RFC 4122 variant). -/
def uuidNewV4 (random : List Nat) : List Nat :=
  random.mapIdx (fun i b =>
    if i = 6 then b % 16 + 64 else if i = 8 then b % 64 + 128 else b)

/-- `uuid.UUID.String()`: lowercase hex of the 16 bytes with dashes after
bytes 4, 6, 8 and 10 (the 8-4-4-4-12 layout). -/
def uuidString (bs : List Nat) : String :=
  String.mk (bytesHexChars (bs.take 4) ++ '-' ::
    bytesHexChars ((bs.drop 4).take 2) ++ '-' ::
    bytesHexChars ((bs.drop 6).take 2) ++ '-' ::
    bytesHexChars ((bs.drop 8).take 2) ++ '-' ::
    bytesHexChars ((bs.drop 10).take 6))

/-- `middleware.generateRequestID`: `uuid.New().String()`, with the random
source's 16 bytes as the parameter. -/
def generateRequestID (random : List Nat) : String :=
  uuidString (uuidNewV4 random)

/-- What one pass of `middleware.RequestIDMiddleware` does to a request: the
identifier it resolves, the context key it sets, the response header it
sets, and whether it called `c.Next()`. -/
structure RequestIDOutcome where
  requestID : String
  contextKeys : List (String × String)
  responseHeaders : List (String × String)
  calledNext : Bool
deriving DecidableEq, Repr

/-- `(*gin.Context).GetHeader`: the inbound header value, `""` when the
header is absent. -/
def getHeader (headers : List (String × String)) (k : String) : String :=
  (headers.lookup k).getD ""

/-- `middleware.RequestIDMiddleware`: take the inbound `X-Request-ID` header;
if it is empty (or absent, which reads as empty), generate a fresh uuid;
store the result under the context key `requestId`, set it as the outbound
`X-Request-ID` header, and call `c.Next()` unconditionally. -/
def requestIDMiddleware (headers : List (String × String)) (random : List Nat) :
    RequestIDOutcome :=
  let requestID :=
    if getHeader headers "X-Request-ID" = "" then generateRequestID random
    else getHeader headers "X-Request-ID"
  { requestID := requestID
  , contextKeys := [("requestId", requestID)]
  , responseHeaders := [("X-Request-ID", requestID)]
  , calledNext := true }

/-! Concrete instances used by witnesses and counterexamples. -/

/-- A well-formed production configuration with a rotating-file target. -/
def cfgFileProd : Config :=
  { Development := false
  , Level := "debug"
  , Encoding := "json"
  , OutputPaths := ["app.log"]
  , ErrorOutputPaths := []
  , DisableCaller := false
  , DisableStacktrace := false
  , MaxSizeMB := 100
  , MaxBackups := 3
  , MaxAgeDays := 28
  , Compress := true }

/-- The same configuration with an unrecognized level string. -/
def cfgBogusLevel : Config := { cfgFileProd with Level := "bogus" }

/-- A non-development configuration whose only output target is `stdout`. -/
def cfgProdStdout : Config :=
  { cfgFileProd with Level := "info", OutputPaths := ["stdout"] }

/-- A development configuration with one rotating-file target. -/
def cfgDev : Config :=
  { cfgFileProd with Development := true, Level := "info" }

/-- A configuration mixing a console target with two file targets. -/
def cfgTwoFiles : Config :=
  { cfgFileProd with
      Level := "info"
      OutputPaths := ["stdout", "app.log", "err.log"] }

/-- `cfgFileProd` with only `Encoding` and `ErrorOutputPaths` changed. -/
def cfgFileProdAlt : Config :=
  { cfgFileProd with Encoding := "console", ErrorOutputPaths := ["stderr"] }

/-- A completed request context that accumulated the single error `boom`. -/
def ctxBoom : GinContext :=
  { path := "/health", rawQuery := "", method := "GET", clientIP := "127.0.0.1"
  , userAgent := "curl/8", status := 500, errors := ["boom"]
  , keys := [("requestId", "abc")] }

/-- A completed request context with no accumulated errors and the
correlation identifier `abc` stored by the request-id middleware. -/
def ctxClean : GinContext := { ctxBoom with status := 200, errors := [] }

/-- Inbound headers carrying `X-Request-ID: abc`. -/
def headersAbc : List (String × String) := [("X-Request-ID", "abc")]

/-- A fixed 16-byte reading of the random source. -/
def sampleRandom : List Nat :=
  [0, 1, 2, 3, 4, 5, 6, 7, 8, 9, 10, 11, 12, 13, 14, 15]

/-! Helper lemmas shared by the claim theorems. -/

/-- A formatted uuid is never the empty string: its 8-4-4-4-12 layout always
contains the four dashes, whatever the byte list. -/
theorem uuidString_ne_empty (bs : List Nat) : uuidString bs ≠ "" := by
  intro h
  have h2 := congrArg String.data h
  simp [uuidString] at h2

/-- `generateRequestID` never returns the empty string. -/
theorem generateRequestID_ne_empty (random : List Nat) :
    generateRequestID random ≠ "" :=
  uuidString_ne_empty _

/-- Inversion for `Init`: success means the level string parsed and the
result is `mkLogger`. -/
theorem Init_ok_inv (config : Config) (l : ZapLogger)
    (h : Init config = Except.ok l) :
    ∃ lvl, levelUnmarshalText config.Level = some lvl ∧ l = mkLogger config lvl := by
  cases heq : levelUnmarshalText config.Level with
  | none => simp [Init, heq] at h
  | some lvl =>
      refine ⟨lvl, rfl, ?_⟩
      simp [Init, heq] at h
      exact h.symm

/-- Every core built by the output-path loop is a file core. -/
theorem fileCoresAux_mem_isFile (config : Config) (enc : EncoderConfig) (lvl : Level) :
    ∀ (ps : List String) (i : Nat), ∀ c ∈ fileCoresAux config enc lvl i ps,
      c.isFile = true := by
  intro ps
  induction ps with
  | nil => intro i c hc; simp [fileCoresAux] at hc
  | cons p rest ih =>
      intro i c hc
      simp only [fileCoresAux] at hc
      by_cases hp : p = "stdout" ∨ p = "stderr"
      · rw [if_pos hp] at hc
        exact ih (i + 1) c hc
      · rw [if_neg hp] at hc
        rcases List.mem_cons.mp hc with rfl | hc2
        · rfl
        · exact ih (i + 1) c hc2

/-- The output-path loop contributes no console core. -/
theorem consoleCount_fileCoresAux (config : Config) (enc : EncoderConfig)
    (lvl : Level) (ps : List String) (i : Nat) :
    consoleCount (fileCoresAux config enc lvl i ps) = 0 := by
  unfold consoleCount
  rw [List.length_eq_zero, List.filter_eq_nil_iff]
  intro c hc
  simp [fileCoresAux_mem_isFile config enc lvl ps i c hc]

/-- `consoleCount` distributes over concatenation. -/
theorem consoleCount_append (a b : List Core) :
    consoleCount (a ++ b) = consoleCount a + consoleCount b := by
  simp [consoleCount, List.filter_append]

/-- The cores built by `Init` contain exactly one console core in
development mode and none otherwise. -/
theorem consoleCount_buildCores (config : Config) (lvl : Level) :
    consoleCount (buildCores config lvl) = if config.Development then 1 else 0 := by
  have hfc := consoleCount_fileCoresAux config (mkEncoderConfig config) lvl
    config.OutputPaths 0
  show consoleCount
      ((if config.Development then [Core.console (mkEncoderConfig config) lvl] else [])
        ++ fileCoresAux config (mkEncoderConfig config) lvl 0 config.OutputPaths)
    = if config.Development then 1 else 0
  rw [consoleCount_append, hfc, Nat.add_zero]
  by_cases h : config.Development
  · rw [if_pos h, if_pos h]
    rfl
  · rw [if_neg h, if_neg h]
    rfl

/-- `filePolicies` distributes over concatenation. -/
theorem filePolicies_append (a b : List Core) :
    filePolicies (a ++ b) = filePolicies a ++ filePolicies b := by
  induction a with
  | nil => rfl
  | cons c rest ih => cases c <;> simp [filePolicies, ih]

/-- The rotation policies of `Init`'s cores all come from the output-path
loop. -/
theorem filePolicies_buildCores (config : Config) (lvl : Level) :
    filePolicies (buildCores config lvl)
      = filePolicies (fileCoresAux config (mkEncoderConfig config) lvl 0
          config.OutputPaths) := by
  by_cases h : config.Development <;>
    simp [buildCores, h, filePolicies_append, filePolicies]

/-- The file cores' filenames are exactly the non-`stdout`/`stderr` output
paths, in order. -/
theorem filePolicies_fileCoresAux_filenames (config : Config)
    (enc : EncoderConfig) (lvl : Level) :
    ∀ (ps : List String) (i : Nat),
      (filePolicies (fileCoresAux config enc lvl i ps)).map (fun w => w.Filename)
        = ps.filter (fun p => ¬(p = "stdout" ∨ p = "stderr")) := by
  intro ps
  induction ps with
  | nil => intro i; rfl
  | cons p rest ih =>
      intro i
      simp only [fileCoresAux]
      by_cases hp : p = "stdout" ∨ p = "stderr"
      · rw [if_pos hp, ih (i + 1)]
        rcases hp with rfl | rfl <;> rfl
      · rw [if_neg hp]
        have hp1 : p ≠ "stdout" := fun h2 => hp (Or.inl h2)
        have hp2 : p ≠ "stderr" := fun h2 => hp (Or.inr h2)
        simp [filePolicies, ih (i + 1), List.filter_cons, hp1, hp2]

/-- Every rotation policy built by the output-path loop carries the
configuration's rotation fields, and its allocation identity is at least
the loop counter it started from. -/
theorem filePolicies_fileCoresAux_fields (config : Config) (enc : EncoderConfig)
    (lvl : Level) :
    ∀ (ps : List String) (i : Nat),
      ∀ w ∈ filePolicies (fileCoresAux config enc lvl i ps),
        w.MaxSize = config.MaxSizeMB ∧ w.MaxBackups = config.MaxBackups ∧
        w.MaxAge = config.MaxAgeDays ∧ w.Compress = config.Compress ∧
        i ≤ w.allocId := by
  intro ps
  induction ps with
  | nil => intro i w hw; simp [fileCoresAux, filePolicies] at hw
  | cons p rest ih =>
      intro i w hw
      simp only [fileCoresAux] at hw
      by_cases hp : p = "stdout" ∨ p = "stderr"
      · rw [if_pos hp] at hw
        have h2 := ih (i + 1) w hw
        exact ⟨h2.1, h2.2.1, h2.2.2.1, h2.2.2.2.1, Nat.le_of_succ_le h2.2.2.2.2⟩
      · rw [if_neg hp] at hw
        simp only [filePolicies] at hw
        rcases List.mem_cons.mp hw with rfl | hw2
        · exact ⟨rfl, rfl, rfl, rfl, Nat.le_refl i⟩
        · have h2 := ih (i + 1) w hw2
          exact ⟨h2.1, h2.2.1, h2.2.2.1, h2.2.2.2.1, Nat.le_of_succ_le h2.2.2.2.2⟩

/-- The rotation policies built by the output-path loop have pairwise
distinct allocation identities: no two file targets share an instance. -/
theorem filePolicies_fileCoresAux_pairwise (config : Config)
    (enc : EncoderConfig) (lvl : Level) :
    ∀ (ps : List String) (i : Nat),
      (filePolicies (fileCoresAux config enc lvl i ps)).Pairwise
        (fun a b => a.allocId ≠ b.allocId) := by
  intro ps
  induction ps with
  | nil => intro i; simp [fileCoresAux, filePolicies]
  | cons p rest ih =>
      intro i
      simp only [fileCoresAux]
      by_cases hp : p = "stdout" ∨ p = "stderr"
      · rw [if_pos hp]
        exact ih (i + 1)
      · rw [if_neg hp]
        simp only [filePolicies]
        refine List.Pairwise.cons ?_ (ih (i + 1))
        intro b hb
        have h2 := filePolicies_fileCoresAux_fields config enc lvl rest (i + 1) b hb
        show i ≠ b.allocId
        omega

/-- Every core built by the output-path loop carries the encoder config it
was given (each iteration calls `NewJSONEncoder(encoderConfig)` on the same
config value). -/
theorem fileCoresAux_mem_encoder (config : Config) (enc : EncoderConfig)
    (lvl : Level) :
    ∀ (ps : List String) (i : Nat), ∀ c ∈ fileCoresAux config enc lvl i ps,
      c.encoder = enc := by
  intro ps
  induction ps with
  | nil => intro i c hc; simp [fileCoresAux] at hc
  | cons p rest ih =>
      intro i c hc
      simp only [fileCoresAux] at hc
      by_cases hp : p = "stdout" ∨ p = "stderr"
      · rw [if_pos hp] at hc
        exact ih (i + 1) c hc
      · rw [if_neg hp] at hc
        rcases List.mem_cons.mp hc with rfl | hc2
        · rfl
        · exact ih (i + 1) c hc2

/-- The output-path loop reads only the rotation fields and the path list:
configurations agreeing on those build the same file cores. -/
theorem fileCoresAux_congr (c1 c2 : Config) (enc : EncoderConfig) (lvl : Level)
    (hMS : c1.MaxSizeMB = c2.MaxSizeMB) (hMB : c1.MaxBackups = c2.MaxBackups)
    (hMA : c1.MaxAgeDays = c2.MaxAgeDays) (hCo : c1.Compress = c2.Compress) :
    ∀ (ps : List String) (i : Nat),
      fileCoresAux c1 enc lvl i ps = fileCoresAux c2 enc lvl i ps := by
  intro ps
  induction ps with
  | nil => intro i; rfl
  | cons p rest ih =>
      intro i
      simp only [fileCoresAux, hMS, hMB, hMA, hCo, ih (i + 1)]

/-- `buildCores` reads only `Development`, `OutputPaths` and the rotation
fields. -/
theorem buildCores_congr (c1 c2 : Config) (lvl : Level)
    (hDev : c1.Development = c2.Development) (hOut : c1.OutputPaths = c2.OutputPaths)
    (hMS : c1.MaxSizeMB = c2.MaxSizeMB) (hMB : c1.MaxBackups = c2.MaxBackups)
    (hMA : c1.MaxAgeDays = c2.MaxAgeDays) (hCo : c1.Compress = c2.Compress) :
    buildCores c1 lvl = buildCores c2 lvl := by
  have henc : mkEncoderConfig c1 = mkEncoderConfig c2 := by
    simp [mkEncoderConfig, hDev]
  show (if c1.Development then [Core.console (mkEncoderConfig c1) lvl] else [])
      ++ fileCoresAux c1 (mkEncoderConfig c1) lvl 0 c1.OutputPaths
    = (if c2.Development then [Core.console (mkEncoderConfig c2) lvl] else [])
      ++ fileCoresAux c2 (mkEncoderConfig c2) lvl 0 c2.OutputPaths
  rw [henc, hDev, hOut,
    fileCoresAux_congr c1 c2 (mkEncoderConfig c2) lvl hMS hMB hMA hCo]

/-- A sequence of `Init` calls that all fail to parse their level leaves the
state where it started. -/
theorem runInits_all_failing (configs : List Config) (s : LoggerState) :
    (∀ c ∈ configs, levelUnmarshalText c.Level = none) → runInits s configs = s := by
  induction configs with
  | nil => intro _; rfl
  | cons c rest ih =>
      intro hfail
      have h1 : (runInit s c).1 = s := by
        simp [runInit, hfail c (List.mem_cons_self c rest)]
      rw [show runInits s (c :: rest) = runInits (runInit s c).1 rest from rfl, h1]
      exact ih (fun c2 hc2 => hfail c2 (List.mem_cons_of_mem _ hc2))

/-! Claim theorems. -/

/-- C1: `Init` succeeds exactly when the configured level string parses:
every valid level string (`debug`, `info`, `warn`, `error`, `fatal`,
`panic`) makes `Init` return a logger, and every string the level parser
rejects makes `Init` return the `unrecognized level` error at once, before
any sink is built (the error branch of `Init` constructs nothing). -/
theorem Init_level_gate (config : Config) :
    (config.Level ∈ ["debug", "info", "warn", "error", "fatal", "panic"] →
      ∃ l, Init config = Except.ok l) ∧
    (levelUnmarshalText config.Level = none →
      Init config = Except.error (ConfigError.unrecognizedLevel config.Level)) := by
  constructor
  · intro h
    have hsome : ∃ lvl, levelUnmarshalText config.Level = some lvl := by
      simp only [List.mem_cons, List.not_mem_nil, or_false] at h
      rcases h with h | h | h | h | h | h <;> rw [h] <;> exact ⟨_, rfl⟩
    rcases hsome with ⟨lvl, hlvl⟩
    exact ⟨mkLogger config lvl, by simp [Init, hlvl]⟩
  · intro h
    simp [Init, h]

/-- Witness for C1 at the concrete level strings `debug` and `bogus`. -/
theorem Init_level_gate_witness :
    (∃ l, Init cfgFileProd = Except.ok l) ∧
    Init cfgBogusLevel = Except.error (ConfigError.unrecognizedLevel "bogus") := by
  constructor
  · exact (Init_level_gate cfgFileProd).1 (by decide)
  · exact (Init_level_gate cfgBogusLevel).2 (by decide)

/-- C2: when the error accumulator is non-empty, `GinZap` emits exactly one
error-level record per accumulated error string — the record's message is
the error text and it carries no fields — and emits no info-level
completion record. -/
theorem ginZap_error_branch (c : GinContext) (start fin : Nat)
    (h : c.errors ≠ []) :
    ginZap c start fin = c.errors.map (fun e => loggerError e []) ∧
    (∀ r ∈ ginZap c start fin, r.level = Level.error ∧ r.fields = []) ∧
    (ginZap c start fin).countP (fun r => r.level = Level.error) = c.errors.length ∧
    (ginZap c start fin).countP (fun r => r.level = Level.info) = 0 := by
  have hlen : 0 < c.errors.length := List.length_pos.mpr h
  have he : ginZap c start fin = c.errors.map (fun e => loggerError e []) := by
    simp [ginZap, hlen]
  refine ⟨he, ?_, ?_, ?_⟩
  · intro r hr
    rw [he] at hr
    rcases List.mem_map.mp hr with ⟨e, _, rfl⟩
    exact ⟨rfl, rfl⟩
  · rw [he, List.countP_map]
    simp [loggerError, Function.comp_def]
  · rw [he, List.countP_map]
    simp [loggerError, Function.comp_def]

/-- Witness for C2: a request that accumulated exactly `boom` yields exactly
one error-level record with message `boom` and zero info-level records. -/
theorem ginZap_error_branch_witness :
    ginZap ctxBoom 0 5 = [{ level := Level.error, msg := "boom", fields := [] }] ∧
    (ginZap ctxBoom 0 5).countP (fun r => r.level = Level.info) = 0 := by
  have h := ginZap_error_branch ctxBoom 0 5 (by decide)
  refine ⟨?_, h.2.2.2⟩
  rw [h.1]
  rfl

/-- C3: when the error accumulator is empty, `GinZap` emits exactly one
info-level record — message the path, fields the status code, method, path,
query, client IP, user agent, the latency `fin - start` (non-negative since
the completion reading follows the start reading), and the `requestId`
context value — and no error-level record. -/
theorem ginZap_success_branch (c : GinContext) (start fin : Nat)
    (hne : c.errors = []) (hmono : start ≤ fin) :
    ginZap c start fin =
      [loggerInfo c.path
        [ { key := "status", value := .int c.status }
        , { key := "method", value := .str c.method }
        , { key := "path", value := .str c.path }
        , { key := "query", value := .str c.rawQuery }
        , { key := "ip", value := .str c.clientIP }
        , { key := "user-agent", value := .str c.userAgent }
        , { key := "latency", value := .duration ((fin : Int) - (start : Int)) }
        , { key := "request-id", value := .str (c.getString "requestId") } ]] ∧
    0 ≤ (fin : Int) - (start : Int) ∧
    (ginZap c start fin).countP (fun r => r.level = Level.info) = 1 ∧
    (ginZap c start fin).countP (fun r => r.level = Level.error) = 0 := by
  have he : ginZap c start fin =
      [loggerInfo c.path
        [ { key := "status", value := .int c.status }
        , { key := "method", value := .str c.method }
        , { key := "path", value := .str c.path }
        , { key := "query", value := .str c.rawQuery }
        , { key := "ip", value := .str c.clientIP }
        , { key := "user-agent", value := .str c.userAgent }
        , { key := "latency", value := .duration ((fin : Int) - (start : Int)) }
        , { key := "request-id", value := .str (c.getString "requestId") } ]] := by
    simp [ginZap, hne]
  refine ⟨he, ?_, ?_, ?_⟩
  · exact sub_nonneg.mpr (by exact_mod_cast hmono)
  · rw [he]
    simp [loggerInfo]
  · rw [he]
    simp [loggerInfo]

/-- Witness for C3 at a concrete error-free request. -/
theorem ginZap_success_branch_witness :
    (ginZap ctxClean 0 5).countP (fun r => r.level = Level.info) = 1 ∧
    (ginZap ctxClean 0 5).countP (fun r => r.level = Level.error) = 0 := by
  have h := ginZap_success_branch ctxClean 0 5 (by decide) (by decide)
  exact ⟨h.2.2.1, h.2.2.2⟩

/-- C4: `RequestIDMiddleware` resolves the inbound `X-Request-ID` value when
it is non-empty and otherwise a freshly generated non-empty uuid; it stores
the resolved identifier under the context key `requestId`, sets it as the
outbound `X-Request-ID` header, and always proceeds to the next stage; and a
request completing without errors whose context the middleware populated
gets exactly one completion record, info-level, carrying the resolved
identifier in its `request-id` field. -/
theorem requestIDMiddleware_spec (headers : List (String × String))
    (random : List Nat) (c : GinContext) (start fin : Nat) :
    (getHeader headers "X-Request-ID" ≠ "" →
      (requestIDMiddleware headers random).requestID = getHeader headers "X-Request-ID") ∧
    (getHeader headers "X-Request-ID" = "" →
      (requestIDMiddleware headers random).requestID = generateRequestID random ∧
      (requestIDMiddleware headers random).requestID ≠ "") ∧
    (requestIDMiddleware headers random).contextKeys =
      [("requestId", (requestIDMiddleware headers random).requestID)] ∧
    (requestIDMiddleware headers random).responseHeaders =
      [("X-Request-ID", (requestIDMiddleware headers random).requestID)] ∧
    (requestIDMiddleware headers random).calledNext = true ∧
    (c.keys = (requestIDMiddleware headers random).contextKeys → c.errors = [] →
      (ginZap c start fin).length = 1 ∧
      ∀ r ∈ ginZap c start fin, r.level = Level.info ∧
        { key := "request-id"
        , value := FieldValue.str (requestIDMiddleware headers random).requestID }
          ∈ r.fields) := by
  refine ⟨?_, ?_, rfl, rfl, rfl, ?_⟩
  · intro h
    simp [requestIDMiddleware, h]
  · intro h
    refine ⟨by simp [requestIDMiddleware, h], ?_⟩
    simp only [requestIDMiddleware, h, if_pos rfl]
    exact generateRequestID_ne_empty random
  · intro hk herr
    have hget : c.getString "requestId" = (requestIDMiddleware headers random).requestID := by
      simp [GinContext.getString, hk, List.lookup, requestIDMiddleware]
    have he : ginZap c start fin =
        [loggerInfo c.path
          [ { key := "status", value := .int c.status }
          , { key := "method", value := .str c.method }
          , { key := "path", value := .str c.path }
          , { key := "query", value := .str c.rawQuery }
          , { key := "ip", value := .str c.clientIP }
          , { key := "user-agent", value := .str c.userAgent }
          , { key := "latency", value := .duration ((fin : Int) - (start : Int)) }
          , { key := "request-id", value := .str (c.getString "requestId") } ]] := by
      simp [ginZap, herr]
    rw [he]
    refine ⟨rfl, ?_⟩
    intro r hr
    rcases List.mem_singleton.mp hr with rfl
    refine ⟨rfl, ?_⟩
    rw [hget]
    simp [loggerInfo]

/-- Witness for C4: a request carrying `X-Request-ID: abc` gets `abc`
resolved, echoed in the response header, and placed in the completion
record's `request-id` field; a request with no inbound header gets a
non-empty identifier. -/
theorem requestIDMiddleware_spec_witness :
    (requestIDMiddleware headersAbc sampleRandom).requestID = "abc" ∧
    (requestIDMiddleware headersAbc sampleRandom).responseHeaders =
      [("X-Request-ID", "abc")] ∧
    (requestIDMiddleware [] sampleRandom).requestID ≠ "" ∧
    (∀ r ∈ ginZap ctxClean 0 5,
      { key := "request-id", value := FieldValue.str "abc" } ∈ r.fields) := by
  have h := requestIDMiddleware_spec headersAbc sampleRandom ctxClean 0 5
  have habc : (requestIDMiddleware headersAbc sampleRandom).requestID = "abc" :=
    h.1 (by decide)
  have h0 := requestIDMiddleware_spec ([] : List (String × String)) sampleRandom ctxClean 0 5
  refine ⟨habc, ?_, (h0.2.1 rfl).2, ?_⟩
  · rw [h.2.2.2.1, habc]
  · intro r hr
    have hmem := (h.2.2.2.2.2 (by decide) rfl).2 r hr
    rw [habc] at hmem
    exact hmem.2

/-- C5 counterexample: with `Development` off and `outputTargets =
["stdout"]`, `Init` succeeds but builds no console sink at all — in fact no
sink whatsoever — although `stdout` is an output target, so a record
admitted by the level reaches no console sink. -/
theorem Init_stdout_console_counterexample :
    "stdout" ∈ cfgProdStdout.OutputPaths ∧
    (Init cfgProdStdout).map (fun l => consoleCount l.cores) = Except.ok 0 ∧
    (Init cfgProdStdout).map (fun l => l.cores.length) = Except.ok 0 := by
  refine ⟨by decide, rfl, rfl⟩

/-- C5 (amended): `stdout`/`stderr` entries of `outputTargets` are skipped —
they never become rotating-file sinks, and the file sinks are exactly the
other entries in order — while a console sink exists precisely when
`developmentMode` is set, independently of `outputTargets`. -/
theorem Init_output_routing (config : Config) (l : ZapLogger)
    (h : Init config = Except.ok l) :
    consoleCount l.cores = (if config.Development then 1 else 0) ∧
    (filePolicies l.cores).map (fun w => w.Filename)
      = config.OutputPaths.filter (fun p => ¬(p = "stdout" ∨ p = "stderr")) := by
  obtain ⟨lvl, hlvl, rfl⟩ := Init_ok_inv config l h
  constructor
  · exact consoleCount_buildCores config lvl
  · rw [show (mkLogger config lvl).cores = buildCores config lvl from rfl,
      filePolicies_buildCores]
    exact filePolicies_fileCoresAux_filenames config (mkEncoderConfig config) lvl
      config.OutputPaths 0

/-- Witness for the amended C5 at a configuration with one file target. -/
theorem Init_output_routing_witness :
    consoleCount (mkLogger cfgFileProd Level.debug).cores = 0 ∧
    (filePolicies (mkLogger cfgFileProd Level.debug).cores).map (fun w => w.Filename)
      = ["app.log"] := by
  have h := Init_output_routing cfgFileProd (mkLogger cfgFileProd Level.debug) rfl
  constructor
  · rw [h.1]
    rfl
  · rw [h.2]
    rfl

/-- C6 counterexample: after a successful `Init`, an `Init` call with the
unrecognized level `bogus` fails but leaves the previously installed global
logger in place and fully usable (an info log on it still succeeds). -/
theorem Init_failure_keeps_prior_logger_counterexample :
    (runInit (runInit initialState cfgFileProd).1 cfgBogusLevel).2
      = Except.error (ConfigError.unrecognizedLevel "bogus") ∧
    (runInit (runInit initialState cfgFileProd).1 cfgBogusLevel).1
      = (runInit initialState cfgFileProd).1 ∧
    ((runInit (runInit initialState cfgFileProd).1 cfgBogusLevel).1).globalLogger
      = some (mkLogger cfgFileProd Level.debug) ∧
    (opInfo (runInit (runInit initialState cfgFileProd).1 cfgBogusLevel).1
      "ping" []).isOk = true := by
  exact ⟨rfl, rfl, rfl, rfl⟩

/-- C6 (amended): an `Init` call whose level string does not parse returns
the `unrecognized level` error before touching the package state, so the
previously installed logger — if any — stays installed and usable. -/
theorem runInit_failure_leaves_state (s : LoggerState) (config : Config)
    (msg : String) (fields : List Field)
    (h : levelUnmarshalText config.Level = none) :
    runInit s config = (s, Except.error (ConfigError.unrecognizedLevel config.Level)) ∧
    (s.globalLogger.isSome → (opInfo (runInit s config).1 msg fields).isOk = true) := by
  have h1 : runInit s config
      = (s, Except.error (ConfigError.unrecognizedLevel config.Level)) := by
    simp [runInit, h]
  refine ⟨h1, ?_⟩
  intro hs
  rw [h1]
  cases hgl : s.globalLogger with
  | none => rw [hgl] at hs; simp at hs
  | some l => simp [opInfo, hgl, Except.isOk, Except.toBool]

/-- Witness for the amended C6: the failing call after a successful one. -/
theorem runInit_failure_leaves_state_witness :
    runInit (runInit initialState cfgFileProd).1 cfgBogusLevel
      = ((runInit initialState cfgFileProd).1,
          Except.error (ConfigError.unrecognizedLevel "bogus")) ∧
    (opInfo (runInit (runInit initialState cfgFileProd).1 cfgBogusLevel).1
      "ping" []).isOk = true := by
  have h := runInit_failure_leaves_state (runInit initialState cfgFileProd).1
    cfgBogusLevel "ping" [] (by decide)
  exact ⟨h.1, h.2 (by decide)⟩

/-- C7: in any accepted configuration, each file target's sink carries its
own freshly constructed rotation policy with the configuration's
`maxSizeMB`, `maxBackups`, `maxAgeDays` and `compress`; the allocation
identities of the policies are pairwise distinct, so no two file targets
share a rotation policy instance or its state. -/
theorem Init_rotation_policies (config : Config) (l : ZapLogger)
    (h : Init config = Except.ok l) :
    (∀ w ∈ filePolicies l.cores,
      w.MaxSize = config.MaxSizeMB ∧ w.MaxBackups = config.MaxBackups ∧
      w.MaxAge = config.MaxAgeDays ∧ w.Compress = config.Compress) ∧
    (filePolicies l.cores).Pairwise (fun a b => a.allocId ≠ b.allocId) := by
  obtain ⟨lvl, hlvl, rfl⟩ := Init_ok_inv config l h
  rw [show (mkLogger config lvl).cores = buildCores config lvl from rfl,
    filePolicies_buildCores]
  constructor
  · intro w hw
    have h2 := filePolicies_fileCoresAux_fields config (mkEncoderConfig config) lvl
      config.OutputPaths 0 w hw
    exact ⟨h2.1, h2.2.1, h2.2.2.1, h2.2.2.2.1⟩
  · exact filePolicies_fileCoresAux_pairwise config (mkEncoderConfig config) lvl
      config.OutputPaths 0

/-- Witness for C7 at a configuration with two file targets among console
targets. -/
theorem Init_rotation_policies_witness :
    (∀ w ∈ filePolicies (mkLogger cfgTwoFiles Level.info).cores,
      w.MaxSize = 100 ∧ w.MaxBackups = 3 ∧ w.MaxAge = 28 ∧ w.Compress = true) ∧
    (filePolicies (mkLogger cfgTwoFiles Level.info).cores).Pairwise
      (fun a b => a.allocId ≠ b.allocId) := by
  have h := Init_rotation_policies cfgTwoFiles (mkLogger cfgTwoFiles Level.info) rfl
  exact ⟨h.1, h.2⟩

/-- C8 counterexample: with `developmentMode` set, the shared encoder config
colorizes the level for the JSON file sink too: the file core of `cfgDev`
renders level `info` as the ANSI-colorized string, not the plain lowercase
severity name. -/
theorem Init_dev_file_level_counterexample :
    (Init cfgDev).map (fun l =>
        (l.cores.filter Core.isFile).map
          (fun c => encodeLevelValue c.encoder.EncodeLevel Level.info))
      = Except.ok ["\x1b[34minfo\x1b[0m"] ∧
    "\x1b[34minfo\x1b[0m" ≠ lowercaseLevelString Level.info := by
  exact ⟨rfl, by decide⟩

/-- C8 (amended): for every accepted configuration, every file sink encodes
records as JSON through the encoder config `Init` built: key order `level`,
`ts` (ISO-8601 time), the optional `logger` name, `caller` present exactly
when caller info is not disabled, `msg`, the call-site field keys, and
`stacktrace` present exactly on error-and-above severities when stack
traces are not disabled; the `level` value is the plain lowercase severity
name when `developmentMode` is off, and the ANSI-colorized lowercase name
when it is on. -/
theorem Init_file_record_shape (config : Config) (l : ZapLogger) (lvl : Level)
    (fieldKeys : List String) (h : Init config = Except.ok l) :
    (∀ c ∈ l.cores, c.isFile = true → c.encoder = mkEncoderConfig config) ∧
    l.callerEnabled = !config.DisableCaller ∧
    stacktraceAt l lvl = (!config.DisableStacktrace && levelEnabled Level.error lvl) ∧
    jsonRecordKeys (mkEncoderConfig config) l.callerEnabled (stacktraceAt l lvl)
        none fieldKeys
      = ["level", "ts"] ++ (if config.DisableCaller then [] else ["caller"])
          ++ ["msg"] ++ fieldKeys
          ++ (if config.DisableStacktrace = false ∧ levelEnabled Level.error lvl = true
              then ["stacktrace"] else []) ∧
    encodeLevelValue (mkEncoderConfig config).EncodeLevel lvl
      = (if config.Development
         then "\x1b[" ++ toString (levelColorCode lvl) ++ "m"
                ++ lowercaseLevelString lvl ++ "\x1b[0m"
         else lowercaseLevelString lvl) ∧
    (mkEncoderConfig config).EncodeTime = TimeEncoder.iso8601 := by
  obtain ⟨plvl, hlvl, rfl⟩ := Init_ok_inv config l h
  refine ⟨?_, rfl, ?_, ?_, ?_, rfl⟩
  · intro c hc hcf
    have hc2 : c ∈ (if config.Development
          then [Core.console (mkEncoderConfig config) plvl] else [])
        ++ fileCoresAux config (mkEncoderConfig config) plvl 0 config.OutputPaths := hc
    rcases List.mem_append.mp hc2 with h1 | h2
    · by_cases hdev : config.Development
      · rw [if_pos hdev] at h1
        rcases List.mem_singleton.mp h1 with rfl
        simp [Core.isFile] at hcf
      · rw [if_neg hdev] at h1
        simp at h1
    · exact fileCoresAux_mem_encoder config (mkEncoderConfig config) plvl
        config.OutputPaths 0 c h2
  · by_cases hds : config.DisableStacktrace <;>
      simp [stacktraceAt, mkLogger, hds]
  · by_cases hdc : config.DisableCaller <;>
      by_cases hds : config.DisableStacktrace <;>
      cases hle : levelEnabled Level.error lvl <;>
      simp [jsonRecordKeys, mkEncoderConfig, stacktraceAt, mkLogger, hdc, hds, hle]
  · by_cases hdev : config.Development <;>
      simp [encodeLevelValue, mkEncoderConfig, hdev]

/-- Witness for the amended C8 at a production configuration, error
severity, one call-site field. -/
theorem Init_file_record_shape_witness :
    jsonRecordKeys (mkEncoderConfig cfgFileProd)
        (mkLogger cfgFileProd Level.debug).callerEnabled
        (stacktraceAt (mkLogger cfgFileProd Level.debug) Level.error) none ["status"]
      = ["level", "ts", "caller", "msg", "status", "stacktrace"] ∧
    encodeLevelValue (mkEncoderConfig cfgFileProd).EncodeLevel Level.error
      = "error" := by
  have h := Init_file_record_shape cfgFileProd (mkLogger cfgFileProd Level.debug)
    Level.error ["status"] rfl
  constructor
  · rw [h.2.2.2.1]
    rfl
  · rw [h.2.2.2.2.1]
    rfl

/-- C9: `Init` reads neither `Encoding` nor `ErrorOutputPaths`: two
configurations agreeing on every other field yield the same `Init` result
and the same state transition, hence the same sinks and the same records
for any sequence of logging calls. -/
theorem Init_ignores_encoding_and_errorOutputPaths (c1 c2 : Config)
    (hDev : c1.Development = c2.Development) (hLvl : c1.Level = c2.Level)
    (hOut : c1.OutputPaths = c2.OutputPaths)
    (hDCa : c1.DisableCaller = c2.DisableCaller)
    (hDSt : c1.DisableStacktrace = c2.DisableStacktrace)
    (hMS : c1.MaxSizeMB = c2.MaxSizeMB) (hMB : c1.MaxBackups = c2.MaxBackups)
    (hMA : c1.MaxAgeDays = c2.MaxAgeDays) (hCo : c1.Compress = c2.Compress) :
    Init c1 = Init c2 ∧ ∀ s, runInit s c1 = runInit s c2 := by
  have hmk : ∀ lvl, mkLogger c1 lvl = mkLogger c2 lvl := by
    intro lvl
    simp [mkLogger, hDCa, hDSt,
      buildCores_congr c1 c2 lvl hDev hOut hMS hMB hMA hCo]
  constructor
  · unfold Init
    rw [hLvl]
    cases levelUnmarshalText c2.Level with
    | none => rfl
    | some lvl => simp [hmk lvl]
  · intro s
    unfold runInit
    rw [hLvl]
    cases levelUnmarshalText c2.Level with
    | none => rfl
    | some lvl => simp [hmk lvl]

/-- Witness for C9: two concrete configurations differing exactly in
`Encoding` and `ErrorOutputPaths` get the same `Init` result. -/
theorem Init_ignores_encoding_witness :
    Init cfgFileProd = Init cfgFileProdAlt ∧
    cfgFileProd.Encoding ≠ cfgFileProdAlt.Encoding ∧
    cfgFileProd.ErrorOutputPaths ≠ cfgFileProdAlt.ErrorOutputPaths := by
  have h := Init_ignores_encoding_and_errorOutputPaths cfgFileProd cfgFileProdAlt
    rfl rfl rfl rfl rfl rfl rfl rfl rfl
  exact ⟨h.1, by decide, by decide⟩

/-- C10 counterexample: before any `Init`, the global logger handle is nil,
yet `WithFields` invoked with an empty field list does not fault: zap's
`With` returns the receiver — the nil handle — before any dereference. -/
theorem withFields_empty_nil_counterexample :
    initialState.globalLogger = none ∧
    opWithFields initialState [] = Except.ok none := ⟨rfl, rfl⟩

/-- C10 (amended): before any successful `Init` — at process start, and
still after any sequence of failed `Init` calls — the global logger handle
is nil and `Debug`, `Info`, `Warn`, `Error`, `Fatal`, `Panic`,
`ErrorWithStack`, `WithFields` given at least one field, and `Sync` all
fault on a nil dereference (`WithFields` with an empty field list alone
returns the nil handle without faulting); after a successful `Init`, none
of these operations faults. -/
theorem nil_logger_fault_discipline (configs : List Config) (config : Config)
    (msg stk : String) (f : Field) (fields : List Field) (lvl : Level)
    (hfail : ∀ c ∈ configs, levelUnmarshalText c.Level = none)
    (hok : levelUnmarshalText config.Level = some lvl) :
    runInits initialState configs = initialState ∧
    initialState.globalLogger = none ∧
    opDebug initialState msg fields = Except.error Fault.nilDereference ∧
    opInfo initialState msg fields = Except.error Fault.nilDereference ∧
    opWarn initialState msg fields = Except.error Fault.nilDereference ∧
    opError initialState msg fields = Except.error Fault.nilDereference ∧
    opFatal initialState msg fields = Except.error Fault.nilDereference ∧
    opPanic initialState msg fields = Except.error Fault.nilDereference ∧
    opErrorWithStack initialState msg stk fields = Except.error Fault.nilDereference ∧
    opWithFields initialState (f :: fields) = Except.error Fault.nilDereference ∧
    opSync initialState = Except.error Fault.nilDereference ∧
    ((opDebug (runInit initialState config).1 msg fields).isOk = true ∧
     (opInfo (runInit initialState config).1 msg fields).isOk = true ∧
     (opWarn (runInit initialState config).1 msg fields).isOk = true ∧
     (opError (runInit initialState config).1 msg fields).isOk = true ∧
     (opFatal (runInit initialState config).1 msg fields).isOk = true ∧
     (opPanic (runInit initialState config).1 msg fields).isOk = true ∧
     (opErrorWithStack (runInit initialState config).1 msg stk fields).isOk = true ∧
     (opWithFields (runInit initialState config).1 (f :: fields)).isOk = true ∧
     (opSync (runInit initialState config).1).isOk = true) := by
  have hstate : (runInit initialState config).1
      = { globalLogger := some (mkLogger config lvl)
        , sugaredLogger := some (mkLogger config lvl) } := by
    simp [runInit, hok]
  refine ⟨runInits_all_failing configs initialState hfail,
    rfl, rfl, rfl, rfl, rfl, rfl, rfl, rfl, ?_, rfl, ?_⟩
  · simp [opWithFields, initialState]
  · rw [hstate]
    refine ⟨rfl, rfl, rfl, rfl, rfl, rfl, rfl, ?_, rfl⟩
    simp [opWithFields, Except.isOk, Except.toBool]

/-- Witness for the amended C10: one failed `Init`, then the nil faults,
then a successful `Init` after which `Sync` works. -/
theorem nil_logger_fault_discipline_witness :
    runInits initialState [cfgBogusLevel] = initialState ∧
    opSync initialState = Except.error Fault.nilDereference ∧
    (opSync (runInit initialState cfgFileProd).1).isOk = true := by
  obtain ⟨h1, -, -, -, -, -, -, -, -, -, h11, -, -, -, -, -, -, -, -, h12⟩ :=
    nil_logger_fault_discipline [cfgBogusLevel] cfgFileProd "m" "s"
      { key := "k", value := FieldValue.str "v" } [] Level.debug (by decide) rfl
  exact ⟨h1, h11, h12⟩

end GoApi

